import Mathlib

/-!
Verification of the DDPG agent in `src/DDPG/agent.py` (class `DDPGAgent`).

Shallow embedding conventions:
* Real-valued quantities (states, actions, rewards, weights) are modelled as
  rationals `ℚ`; vectors and weight tensors as `List ℚ`; a model's weight
  collection as `List (List ℚ)` (an ordered sequence of flat tensors).
* `-np.inf` sentinels (`best_score`, `get_score`) are modelled with
  `WithBot ℚ`, whose `⊥` plays the role of negative infinity.
* External collaborators (Keras network predict/train calls, the task's
  `reset`, random draws) are oracle parameters: arbitrary functions or
  lists passed in explicitly.
* Python exceptions (`AssertionError` from the `assert` in `soft_update`,
  `ValueError` from non-broadcastable numpy arithmetic) become `Except` /
  `Option` results; `none` / `.error` means the call raises.
-/

namespace DDPG

/-- A transition tuple as stored in the replay buffer and consumed by
`learn` (fields mirror `e.state`, `e.action`, `e.reward`, `e.next_state`,
`e.done` in `agent.py`). -/
structure Experience where
  state : List ℚ
  action : List ℚ
  reward : ℚ
  next_state : List ℚ
  done : Bool
deriving Repr, DecidableEq

/-- Modelled from the spec: the Ornstein-Uhlenbeck noise state of
`DDPG.tools.OUNoise` (the file `tools.py` is not part of `src/`): a
mutable vector `x` with fixed parameters mean `mu`, decay `theta` and
variance `sigma`. -/
structure NoiseState where
  size : ℕ
  mu : ℚ
  theta : ℚ
  sigma : ℚ
  x : List ℚ
deriving Repr, DecidableEq

/-- Modelled from the spec: `OUNoise.reset()` sets `x := μ` (vector of the
mean, broadcast). -/
def ouReset (ns : NoiseState) : NoiseState :=
  { ns with x := List.replicate ns.size ns.mu }

/-- Modelled from the spec: `OUNoise.sample()` computes
`dx = θ·(μ − x) + σ·random_normal`, sets `x := x + dx` and returns `x`.
The random normal draw is the oracle argument `rand`. -/
def ouSample (ns : NoiseState) (rand : List ℚ) : List ℚ × NoiseState :=
  let x1 := List.zipWith (fun xi ri => xi + (ns.theta * (ns.mu - xi) + ns.sigma * ri)) ns.x rand
  (x1, { ns with x := x1 })

/-- The mutable state of a `DDPGAgent` instance: task geometry, the four
weight collections (actor/critic, local/target), the noise process, the
replay memory, the fixed hyper-parameters and the episode counters. -/
structure AgentState where
  state_size : ℕ
  action_size : ℕ
  action_low : ℚ
  action_high : ℚ
  actorW : List (List ℚ)
  actorTargetW : List (List ℚ)
  criticW : List (List ℚ)
  criticTargetW : List (List ℚ)
  noise : NoiseState
  memory : List Experience
  buffer_size : ℕ
  batch_size : ℕ
  gamma : ℚ
  tau : ℚ
  best_score : WithBot ℚ
  num_steps : ℕ
  total_reward : ℚ
  last_state : List ℚ

/-- Constructor arguments of `DDPGAgent.__init__`: the task's geometry and
the initial weights produced by the (external) `DDPGActor` / `DDPGCritic`
constructors. -/
structure InitParams where
  state_size : ℕ
  action_size : ℕ
  action_low : ℚ
  action_high : ℚ
  actorW0 : List (List ℚ)
  criticW0 : List (List ℚ)

/-- `DDPGAgent.__init__`: target weights are initialised from the local
weights (`set_weights(get_weights())`), noise parameters are mean 0,
decay 0.1, variance 5, `buffer_size = 100000`, `batch_size = 16`,
`gamma = 0.99`, `tau = 0.1`, `best_score = -np.inf`, `num_steps = 0`.
(`total_reward` and `last_state` are not assigned by `__init__` in the
source — they are first set by `reset_episode` / read by `step`; the
model gives them inert defaults `0` / `[]`.) -/
def initAgent (p : InitParams) : AgentState :=
  { state_size := p.state_size
    action_size := p.action_size
    action_low := p.action_low
    action_high := p.action_high
    actorW := p.actorW0
    actorTargetW := p.actorW0
    criticW := p.criticW0
    criticTargetW := p.criticW0
    noise := { size := p.action_size, mu := 0, theta := 1/10, sigma := 5,
               x := List.replicate p.action_size 0 }
    memory := []
    buffer_size := 100000
    batch_size := 16
    gamma := 99/100
    tau := 1/10
    best_score := ⊥
    num_steps := 0
    total_reward := 0
    last_state := [] }

/-- `DDPGAgent.get_score`:
`return -np.inf if self.num_steps == 0 else self.total_reward / self.num_steps`. -/
def get_score (st : AgentState) : WithBot ℚ :=
  if st.num_steps = 0 then ⊥ else ((st.total_reward / (st.num_steps : ℚ) : ℚ) : WithBot ℚ)

/-- `DDPGAgent.reset_episode`: conditional `best_score` update, noise
reset, `last_state := task.reset()` (the oracle `initState`), counters
cleared, returns `last_state`. -/
def reset_episode (st : AgentState) (initState : List ℚ) : AgentState × List ℚ :=
  let best := if get_score st > st.best_score then get_score st else st.best_score
  ({ st with best_score := best
             noise := ouReset st.noise
             last_state := initState
             total_reward := 0
             num_steps := 0 }, initState)

/-- An example agent (task geometry 1/1, bounds [-1, 1], one scalar weight
tensor per network), used to instantiate theorems at concrete inputs. -/
def agentEx : AgentState :=
  initAgent { state_size := 1, action_size := 1, action_low := -1, action_high := 1,
              actorW0 := [[1]], criticW0 := [[1]] }

/-- An example agent state mid-episode: 10 steps, accumulated reward 30. -/
def scoreEx : AgentState :=
  { agentEx with num_steps := 10, total_reward := 30 }

/-- C4: `get_score()` returns negative infinity (modelled by `⊥`) whenever
`num_steps = 0`, and `total_reward / num_steps` otherwise; the degenerate
case is a sentinel return value, not an exception (`get_score` is total). -/
theorem get_score_spec (st : AgentState) :
    (st.num_steps = 0 → get_score st = ⊥) ∧
    (st.num_steps ≠ 0 →
      get_score st = ((st.total_reward / (st.num_steps : ℚ) : ℚ) : WithBot ℚ)) := by
  constructor
  · intro h
    simp [get_score, h]
  · intro h
    simp [get_score, h]

/-- Witness for C4 at the claim's example: `total_reward = 30`,
`num_steps = 10` gives score `3`. -/
theorem get_score_spec_witness :
    scoreEx.num_steps ≠ 0 ∧ get_score scoreEx = ((3 : ℚ) : WithBot ℚ) := by
  refine ⟨by decide, ?_⟩
  have h := (get_score_spec scoreEx).2 (by decide)
  rw [h]
  norm_num [scoreEx, agentEx, initAgent]

/-- C6: `reset_episode()` sets `best_score` to the maximum of the previous
`best_score` and the score of the episode just ended, resets the noise
process to its mean, sets `last_state` to the environment's initial state,
clears `total_reward` and `num_steps`, and returns the initial state. -/
theorem reset_episode_spec (st : AgentState) (initState : List ℚ) :
    (reset_episode st initState).1.best_score = max st.best_score (get_score st) ∧
    (reset_episode st initState).1.noise = ouReset st.noise ∧
    (reset_episode st initState).1.last_state = initState ∧
    (reset_episode st initState).1.total_reward = 0 ∧
    (reset_episode st initState).1.num_steps = 0 ∧
    (reset_episode st initState).2 = initState := by
  refine ⟨?_, rfl, rfl, rfl, rfl, rfl⟩
  show (if get_score st > st.best_score then get_score st else st.best_score) = _
  rcases lt_or_ge st.best_score (get_score st) with h | h
  · rw [if_pos h, max_eq_right h.le]
  · rw [if_neg (not_lt.mpr h), max_eq_left h]

/-- Failure modes of `soft_update`: the `assert` on the weight-collection
lengths raising `AssertionError`, or numpy raising `ValueError` when two
corresponding tensors are not broadcastable. -/
inductive WeightError where
  | assertionError
  | valueError
deriving Repr, DecidableEq

/-- Elementwise `tau * local + (1 - tau) * target` for one pair of flat
tensors, with numpy's broadcasting rule for the addition: equal lengths
combine pointwise; a length-1 tensor broadcasts against the other; any
other length mismatch raises `ValueError`. -/
def affineCombine (tau : ℚ) (l t : List ℚ) : Except WeightError (List ℚ) :=
  if l.length = t.length then
    .ok (List.zipWith (fun x y => tau * x + (1 - tau) * y) l t)
  else if t.length = 1 then
    .ok (l.map (fun x => tau * x + (1 - tau) * t.headI))
  else if l.length = 1 then
    .ok (t.map (fun y => tau * l.headI + (1 - tau) * y))
  else
    .error .valueError

/-- `tau * local_weights + (1 - tau) * target_weights` over the whole
weight collections (numpy applies the pairwise combination along the
first axis; the outer lengths are equal here because the `assert` in
`soft_update` runs first). -/
def combineAll (tau : ℚ) : List (List ℚ) → List (List ℚ) → Except WeightError (List (List ℚ))
  | l :: ls, t :: ts =>
    match affineCombine tau l t, combineAll tau ls ts with
    | .ok w, .ok ws => .ok (w :: ws)
    | .error e, _ => .error e
    | .ok _, .error e => .error e
  | _, _ => .ok []

/-- `DDPGAgent.soft_update(local_model, target_model)`: reads both weight
collections, `assert len(local_weights) == len(target_weights)` (the only
guard — an `AssertionError` if the counts differ), then computes
`new_weights = tau * local_weights + (1 - tau) * target_weights` and
returns the new target weights (`target_model.set_weights(new_weights)`). -/
def soft_update (tau : ℚ) (localW targetW : List (List ℚ)) :
    Except WeightError (List (List ℚ)) :=
  if localW.length = targetW.length then combineAll tau localW targetW
  else .error .assertionError

/-- Shape equality of two weight collections: same count of tensors and
pairwise equal tensor lengths. -/
def SameShapes (l t : List (List ℚ)) : Prop :=
  List.Forall₂ (fun a b => a.length = b.length) l t

lemma affineCombine_of_length_eq (tau : ℚ) {l t : List ℚ} (h : l.length = t.length) :
    affineCombine tau l t = .ok (List.zipWith (fun x y => tau * x + (1 - tau) * y) l t) := by
  simp [affineCombine, h]

lemma combineAll_of_sameShapes (tau : ℚ) {l t : List (List ℚ)} (h : SameShapes l t) :
    combineAll tau l t =
      .ok (List.zipWith (fun a b => List.zipWith (fun x y => tau * x + (1 - tau) * y) a b) l t) := by
  induction h with
  | nil => rfl
  | cons hab _ ih =>
      rw [List.zipWith_cons_cons, combineAll, affineCombine_of_length_eq tau hab, ih]

lemma soft_update_of_sameShapes (tau : ℚ) {l t : List (List ℚ)} (h : SameShapes l t) :
    soft_update tau l t =
      .ok (List.zipWith (fun a b => List.zipWith (fun x y => tau * x + (1 - tau) * y) a b) l t) := by
  rw [soft_update, if_pos h.length_eq, combineAll_of_sameShapes tau h]

lemma zipWith_proj_right {a b : List ℚ} (h : a.length = b.length) :
    List.zipWith (fun _ y => y) a b = b := by
  induction a generalizing b with
  | nil => cases b with
    | nil => rfl
    | cons y ys => simp at h
  | cons x xs ih => cases b with
    | nil => simp at h
    | cons y ys =>
        simp only [List.length_cons, Nat.succ.injEq] at h
        simp [ih h]

lemma zipWith_proj_left {a b : List ℚ} (h : a.length = b.length) :
    List.zipWith (fun x _ => x) a b = a := by
  induction a generalizing b with
  | nil => rfl
  | cons x xs ih => cases b with
    | nil => simp at h
    | cons y ys =>
        simp only [List.length_cons, Nat.succ.injEq] at h
        simp [ih h]

lemma zipWith_tau_zero {a b : List ℚ} (h : a.length = b.length) :
    List.zipWith (fun x y => (0 : ℚ) * x + (1 - 0) * y) a b = b := by
  have he : (fun x y => (0 : ℚ) * x + (1 - 0) * y) = fun _ y => y := by
    funext x y; ring
  rw [he, zipWith_proj_right h]

lemma zipWith_tau_one {a b : List ℚ} (h : a.length = b.length) :
    List.zipWith (fun x y => (1 : ℚ) * x + (1 - 1) * y) a b = a := by
  have he : (fun x y => (1 : ℚ) * x + (1 - 1) * y) = fun x _ => x := by
    funext x y; ring
  rw [he, zipWith_proj_left h]

lemma zipWith2_tau_zero {l t : List (List ℚ)} (h : SameShapes l t) :
    List.zipWith (fun a b =>
      List.zipWith (fun x y => (0 : ℚ) * x + (1 - 0) * y) a b) l t = t := by
  induction h with
  | nil => rfl
  | cons hab _ ih => rw [List.zipWith_cons_cons, zipWith_tau_zero hab, ih]

lemma zipWith2_tau_one {l t : List (List ℚ)} (h : SameShapes l t) :
    List.zipWith (fun a b =>
      List.zipWith (fun x y => (1 : ℚ) * x + (1 - 1) * y) a b) l t = l := by
  induction h with
  | nil => rfl
  | cons hab _ ih => rw [List.zipWith_cons_cons, zipWith_tau_one hab, ih]

/-- C2: under the shape-match precondition, `soft_update(local, target)`
produces exactly `tau * local + (1 - tau) * target` for every
corresponding tensor pair; with `tau = 0` the target weights are returned
unchanged, and with `tau = 1` they become exactly the local weights. -/
theorem soft_update_formula (tau : ℚ) (l t : List (List ℚ)) (h : SameShapes l t) :
    soft_update tau l t =
        .ok (List.zipWith (fun a b =>
          List.zipWith (fun x y => tau * x + (1 - tau) * y) a b) l t) ∧
      soft_update 0 l t = .ok t ∧
      soft_update 1 l t = .ok l := by
  refine ⟨soft_update_of_sameShapes tau h, ?_, ?_⟩
  · rw [soft_update_of_sameShapes 0 h, zipWith2_tau_zero h]
  · rw [soft_update_of_sameShapes 1 h, zipWith2_tau_one h]

/-- Witness for C2 at a concrete shape-matched input:
`soft_update 1/2 [[2, 4]] [[0, 0]] = [[1, 2]]`. -/
theorem soft_update_formula_witness :
    SameShapes [[(2 : ℚ), 4]] [[0, 0]] ∧
      soft_update (1/2) [[(2 : ℚ), 4]] [[0, 0]] = .ok [[1, 2]] := by
  have hs : SameShapes [[(2 : ℚ), 4]] [[0, 0]] := List.Forall₂.cons rfl List.Forall₂.nil
  refine ⟨hs, ?_⟩
  rw [(soft_update_formula (1/2) _ _ hs).1]
  norm_num

/-- C7 counterexample: a shape-mismatched but count-matched pair of weight
collections (tensor lengths 2 vs 1) does NOT fail: the `assert` only
compares the counts and numpy silently broadcasts, so `soft_update`
returns a result of the local tensor's shape rather than raising. -/
theorem soft_update_shape_mismatch_no_failure :
    soft_update (1/10) [[(1 : ℚ), 2]] [[5]] = .ok [[23/5, 47/10]] := by
  norm_num [soft_update, combineAll, affineCombine]

lemma affineCombine_ne_assertionError (tau : ℚ) (l t : List ℚ) :
    affineCombine tau l t ≠ .error .assertionError := by
  rw [affineCombine]
  split
  · simp
  · split
    · simp
    · split
      · simp
      · simp

lemma combineAll_ne_assertionError (tau : ℚ) :
    ∀ (l t : List (List ℚ)), combineAll tau l t ≠ .error .assertionError := by
  intro l
  induction l with
  | nil => intro t; simp [combineAll]
  | cons a as ih =>
      intro t
      cases t with
      | nil => simp [combineAll]
      | cons b bs =>
          have ha := affineCombine_ne_assertionError tau a b
          have hb := ih bs
          rcases hc : affineCombine tau a b with e | w <;>
            rcases h2 : combineAll tau as bs with e2 | ws <;>
              rw [hc] at ha <;> rw [h2] at hb <;> simp_all [combineAll]

/-- C7 amended: the `assert` in `soft_update` checks only that the two
weight collections have the same COUNT of tensors; a count mismatch
raises an immediate `AssertionError`, but with equal counts no assertion
failure can occur — tensor-shape mismatches are either silently broadcast
(see the counterexample) or surface later as a numpy `ValueError`, not as
the assertion-style failure the claim requires. -/
theorem soft_update_assert_count_only (tau : ℚ) (l t : List (List ℚ)) :
    (l.length ≠ t.length → soft_update tau l t = .error .assertionError) ∧
    (l.length = t.length → soft_update tau l t ≠ .error .assertionError) := by
  constructor
  · intro h
    rw [soft_update, if_neg h]
  · intro h
    rw [soft_update, if_pos h]
    exact combineAll_ne_assertionError tau l t

/-- Witness for the amended C7: a count mismatch (1 tensor vs 0 tensors)
raises the assertion, and the equal-count case of the counterexample does
not. -/
theorem soft_update_assert_count_only_witness :
    soft_update (1/10) [[(1 : ℚ)]] [] = .error .assertionError ∧
      soft_update (1/10) [[(1 : ℚ), 2]] [[5]] ≠ .error .assertionError := by
  exact ⟨(soft_update_assert_count_only (1/10) [[(1 : ℚ)]] []).1 (by decide),
    (soft_update_assert_count_only (1/10) [[(1 : ℚ), 2]] [[5]]).2 (by decide)⟩

/-- The external function-approximator collaborators (`DDPGActor` /
`DDPGCritic` wrap Keras models that are out of scope): each operation is
an oracle function taking the queried/trained network's current weight
collection first. `criticTrainOnBatch` and `actorTrainFn` return the
updated weight collection of the trained local network. -/
structure Collab where
  actorPredict : List (List ℚ) → List (List ℚ) → List (List ℚ)
  criticPredict : List (List ℚ) → List (List ℚ) → List (List ℚ) → List ℚ
  criticTrainOnBatch : List (List ℚ) → List (List ℚ) → List (List ℚ) → List ℚ → List (List ℚ)
  criticActionGradients : List (List ℚ) → List (List ℚ) → List (List ℚ) → List ℚ
  actorTrainFn : List (List ℚ) → List (List ℚ) → List (List ℚ) → List (List ℚ)

/-- `np.reshape(l, [-1, n])`: chunk a flat vector into rows of length `n`. -/
def reshapeRows (n : ℕ) (l : List ℚ) : List (List ℚ) :=
  (List.range (l.length / n)).map (fun i => (l.drop (i * n)).take n)

/-- `[e for e in experiences if e is not None]`: the well-formed entries of
a sampled batch. -/
def validExperiences (exps : List (Option Experience)) : List Experience :=
  exps.filterMap id

/-- `np.vstack([e.state for e in experiences if e is not None])`. -/
def learnStates (exps : List (Option Experience)) : List (List ℚ) :=
  exps.filterMap (Option.map Experience.state)

/-- `np.array([e.action for e in ... if e is not None]).astype(np.float32).reshape(-1, action_size)`
(the float cast is the identity on the modelled rationals; each action is
already an `action_size`-vector, so the reshape returns the stacked rows). -/
def learnActions (exps : List (Option Experience)) : List (List ℚ) :=
  exps.filterMap (Option.map Experience.action)

/-- `np.array([e.reward for e in ... if e is not None]).astype(np.float32).reshape(-1, 1)`,
modelled as the column of rewards. -/
def learnRewards (exps : List (Option Experience)) : List ℚ :=
  exps.filterMap (Option.map Experience.reward)

/-- `np.array([e.done for e in ... if e is not None]).astype(np.uint8).reshape(-1, 1)`:
the boolean `done` flags cast to a 0/1 numeric indicator column. -/
def learnDones (exps : List (Option Experience)) : List ℚ :=
  exps.filterMap (Option.map (fun e => if e.done then (1 : ℚ) else 0))

/-- `np.vstack([e.next_state for e in experiences if e is not None])`. -/
def learnNextStates (exps : List (Option Experience)) : List (List ℚ) :=
  exps.filterMap (Option.map Experience.next_state)

/-- Elementwise combination of three equal-length columns (numpy
elementwise arithmetic over the batch). -/
def zipWith3 (f : ℚ → ℚ → ℚ → ℚ) : List ℚ → List ℚ → List ℚ → List ℚ
  | a :: as, b :: bs, c :: cs => f a b c :: zipWith3 f as bs cs
  | _, _, _ => []

/-- `Q_targets = rewards + self.gamma * Q_targets_next * (1 - dones)`:
the TD target column, elementwise over the batch. -/
def qTargets (gamma : ℚ) (rewards qNext dones : List ℚ) : List ℚ :=
  zipWith3 (fun r q d => r + gamma * q * (1 - d)) rewards qNext dones

/-- `Q_targets_next = self.critic_target.model.predict_on_batch([next_states, actions_next])`
where `actions_next = self.actor_target.model.predict_on_batch(next_states)`. -/
def learnQNext (c : Collab) (st : AgentState) (exps : List (Option Experience)) : List ℚ :=
  c.criticPredict st.criticTargetW (learnNextStates exps)
    (c.actorPredict st.actorTargetW (learnNextStates exps))

/-- The `Q_targets` column computed inside `DDPGAgent.learn`. -/
def learnQTargets (c : Collab) (st : AgentState) (exps : List (Option Experience)) : List ℚ :=
  qTargets st.gamma (learnRewards exps) (learnQNext c st exps) (learnDones exps)

/-- `self.soft_update(self.critic.model, self.critic_target.model)`: the
new weights are installed on the critic-target model only; `none` models
the `AssertionError` (or a numpy `ValueError`) propagating out. -/
def softUpdateCritic (st : AgentState) : Option AgentState :=
  match soft_update st.tau st.criticW st.criticTargetW with
  | .ok w => some { st with criticTargetW := w }
  | .error _ => none

/-- `self.soft_update(self.actor.model, self.actor_target.model)`. -/
def softUpdateActor (st : AgentState) : Option AgentState :=
  match soft_update st.tau st.actorW st.actorTargetW with
  | .ok w => some { st with actorTargetW := w }
  | .error _ => none

/-- `DDPGAgent.learn(experiences)`: build the batch arrays, compute the TD
targets via the target networks, train the local critic, train the local
actor from the critic's action gradients, then soft-update both target
networks. Only the four weight collections change. -/
def learn (c : Collab) (st : AgentState) (exps : List (Option Experience)) :
    Option AgentState :=
  let states := learnStates exps
  let actions := learnActions exps
  let criticW1 := c.criticTrainOnBatch st.criticW states actions (learnQTargets c st exps)
  let grads := reshapeRows st.action_size (c.criticActionGradients criticW1 states actions)
  let actorW1 := c.actorTrainFn st.actorW states grads
  (softUpdateCritic { st with criticW := criticW1, actorW := actorW1 }).bind softUpdateActor

lemma zipWith3_get? (f : ℚ → ℚ → ℚ → ℚ) :
    ∀ (as bs cs : List ℚ) (i : ℕ) (a b c : ℚ),
      as.get? i = some a → bs.get? i = some b → cs.get? i = some c →
      (zipWith3 f as bs cs).get? i = some (f a b c) := by
  intro as
  induction as with
  | nil => intro bs cs i a b c ha; simp at ha
  | cons a0 as ih =>
      intro bs cs i a b c ha hb hc
      cases bs with
      | nil => simp at hb
      | cons b0 bs =>
          cases cs with
          | nil => simp at hc
          | cons c0 cs =>
              cases i with
              | zero =>
                  simp only [List.get?] at ha hb hc
                  cases ha; cases hb; cases hc
                  rfl
              | succ i =>
                  simp only [List.get?] at ha hb hc
                  exact ih bs cs i a b c ha hb hc

/-- C1: in `learn`, the TD target column is
`rewards + gamma * Q_targets_next * (1 - dones)` elementwise over the
batch, and on every terminal transition (`done` indicator 1) the computed
target equals the transition's reward exactly, independent of
`Q_targets_next`. -/
theorem td_target_elementwise (c : Collab) (st : AgentState)
    (exps : List (Option Experience)) (i : ℕ) (r q d : ℚ)
    (hr : (learnRewards exps).get? i = some r)
    (hq : (learnQNext c st exps).get? i = some q)
    (hd : (learnDones exps).get? i = some d) :
    (learnQTargets c st exps).get? i = some (r + st.gamma * q * (1 - d)) ∧
      (d = 1 → (learnQTargets c st exps).get? i = some r) := by
  have hmain : (learnQTargets c st exps).get? i = some (r + st.gamma * q * (1 - d)) :=
    zipWith3_get? (fun r q d => r + st.gamma * q * (1 - d))
      (learnRewards exps) (learnQNext c st exps) (learnDones exps) i r q d hr hq hd
  refine ⟨hmain, fun hd1 => ?_⟩
  rw [hmain, hd1]
  norm_num

/-- The collaborator used to instantiate theorems at concrete inputs: the
actor always predicts action `[5]`, the critic always predicts the Q
column `[100]`, and training returns the weights unchanged. -/
def collabEx : Collab :=
  { actorPredict := fun _ _ => [[5]]
    criticPredict := fun _ _ _ => [100]
    criticTrainOnBatch := fun w _ _ _ => w
    criticActionGradients := fun _ _ _ => [0]
    actorTrainFn := fun w _ _ => w }

/-- A one-element sampled batch holding a single terminal transition with
reward 10. -/
def expsEx : List (Option Experience) :=
  [some { state := [0], action := [0], reward := 10, next_state := [0], done := true }]

/-- Witness for C1 at the claim's end-to-end scenario: `gamma = 0.99`
(from `initAgent`), a single transition with `reward = 10`, `done = 1`,
`Q_targets_next = 100` — the computed TD target is exactly 10, not
`10 + 0.99 * 100`. -/
theorem td_target_elementwise_witness :
    (learnDones expsEx).get? 0 = some 1 ∧
      (learnQNext collabEx agentEx expsEx).get? 0 = some 100 ∧
      agentEx.gamma = 99/100 ∧
      (learnQTargets collabEx agentEx expsEx).get? 0 = some 10 :=
  ⟨rfl, rfl, rfl,
    (td_target_elementwise collabEx agentEx expsEx 0 10 100 1 rfl rfl rfl).2 rfl⟩

lemma filterMap_option_map {α β : Type} (f : α → β) (exps : List (Option α)) :
    exps.filterMap (Option.map f) = (exps.filterMap id).map f := by
  induction exps with
  | nil => rfl
  | cons o os ih =>
      cases o with
      | none => simpa using ih
      | some e => simpa using ih

/-- C8: the five batch arrays built by `learn` are exactly the maps over
the non-`None` entries of `experiences` — every `None` entry is skipped
in all five arrays (so all five have the same length, the number of
well-formed entries), with `dones` cast to a 0/1 indicator. -/
theorem learn_arrays_spec (exps : List (Option Experience)) :
    learnStates exps = (validExperiences exps).map Experience.state ∧
      learnActions exps = (validExperiences exps).map Experience.action ∧
      learnRewards exps = (validExperiences exps).map Experience.reward ∧
      learnDones exps =
        (validExperiences exps).map (fun e => if e.done then (1 : ℚ) else 0) ∧
      learnNextStates exps = (validExperiences exps).map Experience.next_state ∧
      (learnStates exps).length = (validExperiences exps).length ∧
      (learnActions exps).length = (validExperiences exps).length ∧
      (learnRewards exps).length = (validExperiences exps).length ∧
      (learnDones exps).length = (validExperiences exps).length ∧
      (learnNextStates exps).length = (validExperiences exps).length := by
  have hs := filterMap_option_map Experience.state exps
  have ha := filterMap_option_map Experience.action exps
  have hr := filterMap_option_map Experience.reward exps
  have hd := filterMap_option_map (fun e => if e.done then (1 : ℚ) else 0) exps
  have hn := filterMap_option_map Experience.next_state exps
  refine ⟨hs, ha, hr, hd, hn, ?_, ?_, ?_, ?_, ?_⟩ <;>
    simp [learnStates, learnActions, learnRewards, learnDones, learnNextStates,
      validExperiences, hs, ha, hr, hd, hn]

lemma softUpdateCritic_some {st st' : AgentState} (h : softUpdateCritic st = some st') :
    ∃ w, soft_update st.tau st.criticW st.criticTargetW = .ok w ∧
      st' = { st with criticTargetW := w } := by
  rw [softUpdateCritic] at h
  rcases hsu : soft_update st.tau st.criticW st.criticTargetW with e | w
  · rw [hsu] at h; exact absurd h (by simp)
  · rw [hsu] at h
    simp only [Option.some.injEq] at h
    exact ⟨w, rfl, h.symm⟩

lemma softUpdateActor_some {st st' : AgentState} (h : softUpdateActor st = some st') :
    ∃ w, soft_update st.tau st.actorW st.actorTargetW = .ok w ∧
      st' = { st with actorTargetW := w } := by
  rw [softUpdateActor] at h
  rcases hsu : soft_update st.tau st.actorW st.actorTargetW with e | w
  · rw [hsu] at h; exact absurd h (by simp)
  · rw [hsu] at h
    simp only [Option.some.injEq] at h
    exact ⟨w, rfl, h.symm⟩

/-- C10: a successful `soft_update` call on a local/target model pair
modifies only that target model's weights — the local model's weights and
every other component of the agent state (the other network pair, gamma,
tau, buffer, noise, episode counters, best score) are unchanged. Stated
for both call sites (`critic → critic_target` and `actor → actor_target`). -/
theorem soft_update_frame (st st' : AgentState) :
    (softUpdateCritic st = some st' →
      st'.criticW = st.criticW ∧ st'.actorW = st.actorW ∧
      st'.actorTargetW = st.actorTargetW ∧ st'.gamma = st.gamma ∧
      st'.tau = st.tau ∧ st'.memory = st.memory ∧ st'.noise = st.noise ∧
      st'.total_reward = st.total_reward ∧ st'.num_steps = st.num_steps ∧
      st'.best_score = st.best_score ∧ st'.last_state = st.last_state ∧
      st'.batch_size = st.batch_size ∧ st'.buffer_size = st.buffer_size) ∧
    (softUpdateActor st = some st' →
      st'.actorW = st.actorW ∧ st'.criticW = st.criticW ∧
      st'.criticTargetW = st.criticTargetW ∧ st'.gamma = st.gamma ∧
      st'.tau = st.tau ∧ st'.memory = st.memory ∧ st'.noise = st.noise ∧
      st'.total_reward = st.total_reward ∧ st'.num_steps = st.num_steps ∧
      st'.best_score = st.best_score ∧ st'.last_state = st.last_state ∧
      st'.batch_size = st.batch_size ∧ st'.buffer_size = st.buffer_size) := by
  constructor
  · intro h
    obtain ⟨w, _, hst⟩ := softUpdateCritic_some h
    subst hst
    exact ⟨rfl, rfl, rfl, rfl, rfl, rfl, rfl, rfl, rfl, rfl, rfl, rfl, rfl⟩
  · intro h
    obtain ⟨w, _, hst⟩ := softUpdateActor_some h
    subst hst
    exact ⟨rfl, rfl, rfl, rfl, rfl, rfl, rfl, rfl, rfl, rfl, rfl, rfl, rfl⟩

/-- The result of the example critic-side soft update on `agentEx` (its
local and target critic weights are both `[[1]]`, so the update succeeds). -/
def softUpdateEx : AgentState :=
  (softUpdateCritic agentEx).getD agentEx

/-- Witness for C10 at the concrete agent `agentEx`: the successful
critic-target soft update leaves the local critic weights and the episode
counters unchanged. -/
theorem soft_update_frame_witness :
    softUpdateEx.criticW = agentEx.criticW ∧
      softUpdateEx.num_steps = agentEx.num_steps ∧
      softUpdateEx.memory = agentEx.memory :=
  ⟨((soft_update_frame agentEx softUpdateEx).1 rfl).1,
    ((soft_update_frame agentEx softUpdateEx).1 rfl).2.2.2.2.2.2.2.2.1,
    ((soft_update_frame agentEx softUpdateEx).1 rfl).2.2.2.2.2.1⟩

/-- `DDPGAgent.act(states)`: reshape the input to a batch
(`np.reshape(states, [-1, state_size])`), take the actor-local
prediction's first row, add one noise sample elementwise
(`list(action + self.noise.sample())`) and return it; the noise state is
advanced. No clipping to `[action_low, action_high]` is applied. -/
def act (c : Collab) (st : AgentState) (states rand : List ℚ) : AgentState × List ℚ :=
  ({ st with noise := (ouSample st.noise rand).2 },
   List.zipWith (· + ·)
     ((c.actorPredict st.actorW (reshapeRows st.state_size states)).headI)
     (ouSample st.noise rand).1)

/-- C5: for an input holding a single state vector, `act` reshapes it to a
batch of one, queries the actor-local network, adds exactly one noise
sample elementwise, and returns the sum with no clipping to
`[action_low, action_high]` — in particular (third conjunct) the returned
action can lie strictly above `action_high`. -/
theorem act_spec (c : Collab) (st : AgentState) (states rand : List ℚ)
    (hlen : states.length = st.state_size) (hpos : 0 < st.state_size) :
    reshapeRows st.state_size states = [states] ∧
    (act c st states rand).2 =
      List.zipWith (· + ·) ((c.actorPredict st.actorW [states]).headI)
        (ouSample st.noise rand).1 ∧
    ∃ (c2 : Collab) (st2 : AgentState) (s2 r2 : List ℚ) (a : ℚ),
      (act c2 st2 s2 r2).2 = [a] ∧ st2.action_high < a := by
  have hr1 : List.range 1 = [0] := rfl
  have h1 : reshapeRows st.state_size states = [states] := by
    rw [reshapeRows, hlen, Nat.div_self hpos, hr1, List.map_singleton,
      Nat.zero_mul, List.drop_zero, ← hlen, List.take_length]
  refine ⟨h1, ?_, ?_⟩
  · show List.zipWith (· + ·)
      ((c.actorPredict st.actorW (reshapeRows st.state_size states)).headI)
      (ouSample st.noise rand).1 = _
    rw [h1]
  · refine ⟨collabEx, agentEx, [0], [0], 5, ?_, ?_⟩
    · simp [act, collabEx, agentEx, initAgent, ouSample, reshapeRows]
    · norm_num [agentEx, initAgent]

/-- Witness for C5: `agentEx` has `state_size = 1`, so the single state
`[7]` is reshaped to the batch `[[7]]`. -/
theorem act_spec_witness :
    reshapeRows agentEx.state_size [(7 : ℚ)] = [[7]] :=
  (act_spec collabEx agentEx [7] [0] rfl (by decide)).1

/-- Modelled from the spec: `ReplayBuffer.add` (the file `tools.py` is not
part of `src/`) appends a transition; if the buffer is at capacity the
oldest entry is evicted first (FIFO ring-buffer semantics). -/
def bufferAdd (buf : List Experience) (cap : ℕ) (e : Experience) : List Experience :=
  if buf.length = cap then buf.drop 1 ++ [e] else buf ++ [e]

/-- `DDPGAgent.step(action, reward, next_state, done)`: accumulate
`total_reward` and `num_steps`, store the transition
`(last_state, action, reward, next_state, done)` in the replay memory,
then — if the memory now holds strictly more than `batch_size`
transitions — sample a batch (the `sampler` oracle models the uniform
random draw) and invoke `learn`; finally roll `last_state` over to
`next_state`. The returned `Bool` is ghost instrumentation recording
whether `learn` was invoked; `none` models an exception from `learn`. -/
def step (c : Collab) (sampler : List Experience → List (Option Experience))
    (st : AgentState) (action : List ℚ) (reward : ℚ) (next_state : List ℚ)
    (done : Bool) : Option (AgentState × Bool) :=
  let st1 := { st with
    total_reward := st.total_reward + reward
    num_steps := st.num_steps + 1
    memory := bufferAdd st.memory st.buffer_size
      ⟨st.last_state, action, reward, next_state, done⟩ }
  if st1.memory.length > st1.batch_size then
    (learn c st1 (sampler st1.memory)).map
      (fun s2 => ({ s2 with last_state := next_state }, true))
  else
    some ({ st1 with last_state := next_state }, false)

lemma learn_frame {c : Collab} {st st' : AgentState} {exps : List (Option Experience)}
    (h : learn c st exps = some st') :
    st'.total_reward = st.total_reward ∧ st'.num_steps = st.num_steps ∧
    st'.memory = st.memory ∧ st'.last_state = st.last_state ∧
    st'.best_score = st.best_score ∧ st'.batch_size = st.batch_size ∧
    st'.buffer_size = st.buffer_size ∧ st'.noise = st.noise := by
  simp only [learn] at h
  rcases Option.bind_eq_some.mp h with ⟨s1, h1, h2⟩
  obtain ⟨w1, _, hs1⟩ := softUpdateCritic_some h1
  obtain ⟨w2, _, hs2⟩ := softUpdateActor_some h2
  subst hs2
  subst hs1
  exact ⟨rfl, rfl, rfl, rfl, rfl, rfl, rfl, rfl⟩

lemma mem_bufferAdd (buf : List Experience) (cap : ℕ) (e : Experience) :
    e ∈ bufferAdd buf cap e := by
  rw [bufferAdd]
  split <;> simp

/-- C3: every successful `step(action, reward, next_state, done)` call
increases `total_reward` by `reward` and `num_steps` by 1; stores the
transition `(last_state, action, reward, next_state, done)` in the replay
buffer; samples a batch and invokes `learn` if and only if the buffer's
length after the insert is strictly greater than `batch_size`; and leaves
`last_state = next_state`. -/
theorem step_spec (c : Collab) (sampler : List Experience → List (Option Experience))
    (st : AgentState) (action : List ℚ) (reward : ℚ) (next_state : List ℚ) (done : Bool)
    (st' : AgentState) (learned : Bool)
    (h : step c sampler st action reward next_state done = some (st', learned)) :
    st'.total_reward = st.total_reward + reward ∧
    st'.num_steps = st.num_steps + 1 ∧
    st'.memory = bufferAdd st.memory st.buffer_size
      ⟨st.last_state, action, reward, next_state, done⟩ ∧
    (⟨st.last_state, action, reward, next_state, done⟩ : Experience) ∈ st'.memory ∧
    (learned = true ↔
      (bufferAdd st.memory st.buffer_size
        ⟨st.last_state, action, reward, next_state, done⟩).length > st.batch_size) ∧
    st'.last_state = next_state := by
  simp only [step] at h
  split at h
  case isTrue hc =>
    rcases Option.map_eq_some'.mp h with ⟨s2, hl, heq⟩
    have hfr := learn_frame hl
    rw [Prod.mk.injEq] at heq
    obtain ⟨hst, hlearned⟩ := heq
    subst hst
    refine ⟨?_, ?_, ?_, ?_, ?_, rfl⟩
    · exact hfr.1
    · exact hfr.2.1
    · exact hfr.2.2.1
    · rw [hfr.2.2.1]
      exact mem_bufferAdd _ _ _
    · exact iff_of_true hlearned.symm hc
  case isFalse hc =>
    rw [Option.some.injEq, Prod.mk.injEq] at h
    obtain ⟨hst, hlearned⟩ := h
    subst hst
    refine ⟨rfl, rfl, rfl, mem_bufferAdd _ _ _, ?_, rfl⟩
    constructor
    · intro hl
      rw [← hlearned] at hl
      exact absurd hl (by simp)
    · intro hcond
      exact absurd hcond hc

/-- The result of a concrete `step` on the freshly constructed `agentEx`
(buffer empty, so no learning is triggered). -/
def stepEx : AgentState × Bool :=
  (step collabEx (fun _ => []) agentEx [0] 5 [1] false).getD (agentEx, true)

/-- Witness for C3 at a concrete call: reward 5 is accumulated,
`num_steps` becomes 1, no learning is triggered on the 1-element buffer,
and `last_state` rolls over to `[1]`. -/
theorem step_spec_witness :
    stepEx.1.total_reward = agentEx.total_reward + 5 ∧
      stepEx.1.num_steps = agentEx.num_steps + 1 ∧
      stepEx.1.last_state = [1] :=
  ⟨(step_spec collabEx (fun _ => []) agentEx [0] 5 [1] false stepEx.1 stepEx.2 rfl).1,
    (step_spec collabEx (fun _ => []) agentEx [0] 5 [1] false stepEx.1 stepEx.2 rfl).2.1,
    (step_spec collabEx (fun _ => []) agentEx [0] 5 [1] false stepEx.1 stepEx.2 rfl).2.2.2.2.2⟩

/-- One public operation on the agent, with its randomness oracles
attached as data (noise draw for `act`, sampled batch for `step`/`learn`,
environment initial state for `reset_episode`). -/
inductive AgentOp where
  | actOp (states rand : List ℚ)
  | stepOp (action : List ℚ) (reward : ℚ) (next_state : List ℚ) (done : Bool)
      (sample : List (Option Experience))
  | learnOp (exps : List (Option Experience))
  | scoreOp
  | resetOp (initState : List ℚ)

/-- Whether an operation is a `reset_episode` call. -/
def AgentOp.isReset : AgentOp → Bool
  | .resetOp _ => true
  | _ => false

/-- Apply one operation to the agent state; `none` models an exception
propagating out of `learn`. `scoreOp` (`get_score`) is pure and leaves
the state unchanged. -/
def applyOp (c : Collab) (st : AgentState) : AgentOp → Option AgentState
  | .actOp states rand => some (act c st states rand).1
  | .stepOp a r n d smp => (step c (fun _ => smp) st a r n d).map Prod.fst
  | .learnOp exps => learn c st exps
  | .scoreOp => some st
  | .resetOp init => some (reset_episode st init).1

/-- Run a sequence of agent operations, stopping at the first exception. -/
def runOps (c : Collab) (st : AgentState) : List AgentOp → Option AgentState
  | [] => some st
  | op :: ops =>
    match applyOp c st op with
    | none => none
    | some st1 => runOps c st1 ops

lemma step_best {c : Collab} {sampler : List Experience → List (Option Experience)}
    {st : AgentState} {a : List ℚ} {r : ℚ} {n : List ℚ} {d : Bool}
    {p : AgentState × Bool} (h : step c sampler st a r n d = some p) :
    p.1.best_score = st.best_score := by
  simp only [step] at h
  split at h
  · rcases Option.map_eq_some'.mp h with ⟨s2, hl, heq⟩
    rw [← heq]
    exact (learn_frame hl).2.2.2.2.1
  · rw [Option.some.injEq] at h
    rw [← h]

lemma applyOp_best_eq {c : Collab} {st st' : AgentState} (op : AgentOp)
    (h : applyOp c st op = some st') (hr : op.isReset = false) :
    st'.best_score = st.best_score := by
  cases op with
  | actOp s r =>
      rw [applyOp, Option.some.injEq] at h
      subst h
      rfl
  | stepOp a r n d smp =>
      rw [applyOp] at h
      rcases Option.map_eq_some'.mp h with ⟨p, hp, hfst⟩
      rw [← hfst]
      exact step_best hp
  | learnOp exps =>
      rw [applyOp] at h
      exact (learn_frame h).2.2.2.2.1
  | scoreOp =>
      rw [applyOp, Option.some.injEq] at h
      subst h
      rfl
  | resetOp init => simp [AgentOp.isReset] at hr

lemma applyOp_best_le {c : Collab} {st st' : AgentState} (op : AgentOp)
    (h : applyOp c st op = some st') :
    st.best_score ≤ st'.best_score := by
  cases hr : op.isReset with
  | false => rw [applyOp_best_eq op h hr]
  | true =>
      cases op with
      | actOp s r => simp [AgentOp.isReset] at hr
      | stepOp a r n d smp => simp [AgentOp.isReset] at hr
      | learnOp exps => simp [AgentOp.isReset] at hr
      | scoreOp => simp [AgentOp.isReset] at hr
      | resetOp init =>
          rw [applyOp, Option.some.injEq] at h
          subst h
          show st.best_score ≤
            (if get_score st > st.best_score then get_score st else st.best_score)
          rcases lt_or_ge st.best_score (get_score st) with hlt | hge
          · rw [if_pos hlt]
            exact hlt.le
          · rw [if_neg (not_lt.mpr hge)]

lemma runOps_best_le {c : Collab} :
    ∀ (ops : List AgentOp) (st st' : AgentState),
      runOps c st ops = some st' → st.best_score ≤ st'.best_score := by
  intro ops
  induction ops with
  | nil =>
      intro st st' h
      rw [runOps, Option.some.injEq] at h
      subst h
      exact le_refl _
  | cons op ops ih =>
      intro st st' h
      rw [runOps] at h
      rcases hap : applyOp c st op with _ | st1
      · simp only [hap] at h
        exact absurd h (by simp)
      · simp only [hap] at h
        exact le_trans (applyOp_best_le op hap) (ih st1 st' h)

/-- C9: `best_score` is a process-wide running maximum: it starts at
negative infinity (`⊥`) in `__init__`, no operation other than
`reset_episode` changes it, and it never decreases over any sequence of
agent operations (act, step, learn, get_score, reset_episode). -/
theorem best_score_running_max (c : Collab) :
    (∀ p : InitParams, (initAgent p).best_score = ⊥) ∧
    (∀ (st st' : AgentState) (op : AgentOp), op.isReset = false →
      applyOp c st op = some st' → st'.best_score = st.best_score) ∧
    (∀ (ops : List AgentOp) (st st' : AgentState),
      runOps c st ops = some st' → st.best_score ≤ st'.best_score) :=
  ⟨fun _ => rfl, fun _ _ op hr h => applyOp_best_eq op h hr,
    fun ops st st' h => runOps_best_le ops st st' h⟩

/-- Witness for C9: running a single `reset_episode` on the freshly
constructed example agent does not decrease `best_score`. -/
theorem best_score_running_max_witness :
    agentEx.best_score ≤ ((reset_episode agentEx [0]).1).best_score :=
  (best_score_running_max collabEx).2.2 [AgentOp.resetOp [0]] agentEx _ rfl

end DDPG
